import Mathlib

/-!
Shallow embedding of the icon-resolution core of
`src/setupStuff/Applications-Overview-XFCE.py`.

Python strings are modelled as Lean `String` (a wrapper around `List Char`);
every Python string primitive used by the program (`lower`, `strip`,
`split`, `rsplit`, `replace`, `startswith`, `endswith`, `in`, `join`,
`os.path.join`) is embedded as an explicit Lean function over the character
list.  The filesystem and the environment are passed explicitly as
read-only parameters: `ex : String → Bool` models `os.path.exists`,
`ls : String → List String` models `os.listdir`,
`fs : String → Option (List String)` models opening a file and reading its
lines (`none` = the open/read raised, which the program catches), and
`walk : String → List (String × List String)` models `os.walk` restricted
to the `(root, files)` components the program uses.
-/

/-- Boolean prefix test on character lists (Python `startswith` core). -/
def isPrefixChars : List Char → List Char → Bool
  | [], _ => true
  | _ :: _, [] => false
  | a :: as, b :: bs => a = b && isPrefixChars as bs

/-- Boolean substring-occurrence test (Python `needle in hay` on strings). -/
def isSubChars (needle : List Char) : List Char → Bool
  | [] => isPrefixChars needle []
  | c :: t => isPrefixChars needle (c :: t) || isSubChars needle t

/-- Python `s.startswith(pre)`. -/
def pyStartsWith (s pre : String) : Bool := isPrefixChars pre.data s.data

/-- Python `s.endswith(suf)` (a suffix is a reversed-prefix of the reverse). -/
def pyEndsWith (s suf : String) : Bool := isPrefixChars suf.data.reverse s.data.reverse

/-- Python substring containment `needle in hay`. -/
def pyIn (needle hay : String) : Bool := isSubChars needle.data hay.data

/-- Python single-character containment `c in s`. -/
def pyContains (s : String) (c : Char) : Bool := s.data.contains c

/-- Python `s.lower()` (per-character lowercasing). -/
def pyLower (s : String) : String := ⟨s.data.map Char.toLower⟩

/-- Python `s.replace(' ', '')`: remove every space character. -/
def pyRemoveSpaces (s : String) : String := ⟨s.data.filter (fun c => c ≠ ' ')⟩

/-- Drop leading and trailing whitespace from a character list. -/
def trimChars (l : List Char) : List Char :=
  ((l.dropWhile Char.isWhitespace).reverse.dropWhile Char.isWhitespace).reverse

/-- Python `s.strip()`. -/
def pyStrip (s : String) : String := ⟨trimChars s.data⟩

/-- Core of Python `s.split()` (no argument): split on whitespace runs,
dropping empty tokens.  The accumulator holds the current token reversed. -/
def splitWSAux : List Char → List Char → List String
  | [], cur => if cur = [] then [] else [⟨cur.reverse⟩]
  | c :: rest, cur =>
    if c.isWhitespace then
      if cur = [] then splitWSAux rest [] else ⟨cur.reverse⟩ :: splitWSAux rest []
    else splitWSAux rest (c :: cur)

/-- Python `s.split()` with no argument. -/
def pySplit (s : String) : List String := splitWSAux s.data []

/-- Python `" ".join(tokens)`. -/
def pyJoinSpace : List String → String
  | [] => ""
  | [t] => t
  | t :: rest => t ++ " " ++ pyJoinSpace rest

/-- Core of Python `s.split(c)` for a single-character separator: split at
every occurrence, keeping empty pieces. -/
def splitOnCharAux (c : Char) : List Char → List Char → List String
  | [], cur => [⟨cur.reverse⟩]
  | x :: rest, cur =>
    if x = c then ⟨cur.reverse⟩ :: splitOnCharAux c rest []
    else splitOnCharAux c rest (x :: cur)

/-- Python `s.split(c)` for a one-character separator string. -/
def pySplitOnChar (c : Char) (s : String) : List String := splitOnCharAux c s.data []

/-- Substring after the final occurrence of `c` (Python `s.rsplit(c, 1)[-1]`
and `s.split(c)[-1]` when `c` occurs in `s`; all of `s` when it does not). -/
def afterLastChar (c : Char) (s : String) : String :=
  ⟨(s.data.reverse.takeWhile (fun x => x ≠ c)).reverse⟩

/-- Substring after the first occurrence of `c` (Python `s.split(c, 1)[1]`
when `c` occurs in `s`). -/
def afterFirstChar (c : Char) (s : String) : String :=
  ⟨(s.data.dropWhile (fun x => x ≠ c)).drop 1⟩

/-- Embedding of Python `os.path.join(a, b)` for the cases arising here. -/
def os_path_join (a b : String) : String :=
  if pyStartsWith b "/" then b
  else if a = "" then b
  else if pyEndsWith a "/" then a ++ b
  else a ++ "/" ++ b

/-- Source lines 9-14: the fixed descriptor-directory list, in the order the
program declares it; `home` models `os.path.expanduser("~")`. -/
def DESKTOP_DIRS (home : String) : List String :=
  ["/usr/share/applications",
   home ++ "/.local/share/applications",
   "/var/lib/flatpak/exports/share/applications",
   "/var/lib/snapd/desktop/applications"]

/-- Source line 16: recognised icon extensions in fixed priority order. -/
def ICON_EXTS : List String := ["png", "svg", "xpm", "jpg", "jpeg", "bmp", "gif"]

/-- Possible outcomes of the external theme query
`subprocess.check_output(["xfconf-query", ...]).decode()` (source lines 22-24):
success with decoded bytes, a non-zero exit (`CalledProcessError`), a missing
executable (`FileNotFoundError` raised by `check_output`), or undecodable
output (`UnicodeDecodeError` raised by `decode`). -/
inductive ThemeQueryOutcome where
  | ok (decoded : String)
  | calledProcessError
  | fileNotFoundError
  | unicodeDecodeError
deriving DecidableEq

/-- Embedding of `get_current_icon_theme` (source lines 19-29).  The
`try` block catches only `subprocess.CalledProcessError`; every other
exception escapes the function, modelled as `Except.error` carrying the
exception's name. -/
def get_current_icon_theme : ThemeQueryOutcome → Except String String
  | ThemeQueryOutcome.ok s => Except.ok (pyStrip s)
  | ThemeQueryOutcome.calledProcessError => Except.ok "hicolor"
  | ThemeQueryOutcome.fileNotFoundError => Except.error "FileNotFoundError"
  | ThemeQueryOutcome.unicodeDecodeError => Except.error "UnicodeDecodeError"

/-- Source lines 34-37: the data-root list `[xdg_data_home] + xdg_data_dirs`,
with the program's defaults for unset environment variables.  `xdd` models
`XDG_DATA_DIRS`, `xdh` models `XDG_DATA_HOME`, `home` the expanded `~`. -/
def data_bases (xdd xdh : Option String) (home : String) : List String :=
  (xdh.getD (home ++ "/.local/share"))
    :: pySplitOnChar ':' (xdd.getD "/usr/local/share:/usr/share")

/-- One loop of `get_icon_search_paths`: append `f b` for each base `b`
whose image exists (source lines 37-45). -/
def existing_dirs (ex : String → Bool) (f : String → String) : List String → List String
  | [] => []
  | b :: rest =>
    if ex (f b) then f b :: existing_dirs ex f rest else existing_dirs ex f rest

/-- Embedding of `get_icon_search_paths` (source lines 31-51). -/
def get_icon_search_paths (theme : String) (xdd xdh : Option String) (home : String)
    (ex : String → Bool) : List String :=
  let bases := data_bases xdd xdh home
  existing_dirs ex (fun b => os_path_join (os_path_join b "icons") theme) bases
    ++ existing_dirs ex (fun b => os_path_join (os_path_join b "icons") "hicolor") bases
    ++ (if ex "/usr/share/pixmaps" then ["/usr/share/pixmaps"] else [])

/-- Inner extension loop of `search_icon` (source lines 57-60): first
extension whose candidate file is listed in `files` wins, joined onto the
walk root. -/
def try_exts (icon_name root : String) (files : List String) : List String → Option String
  | [] => none
  | e :: rest =>
    if (icon_name ++ "." ++ e) ∈ files then some (os_path_join root (icon_name ++ "." ++ e))
    else try_exts icon_name root files rest

/-- Walk loop of `search_icon` within one search root (source lines 56-60):
the walk entries are `(root, files)` pairs in traversal order. -/
def search_in_root (icon_name : String) : List (String × List String) → Option String
  | [] => none
  | rf :: rest =>
    match try_exts icon_name rf.1 rf.2 ICON_EXTS with
    | some p => some p
    | none => search_in_root icon_name rest

/-- Embedding of `search_icon` (source lines 53-61): roots are tried in
list order, each expanded by the `walk` model of `os.walk`. -/
def search_icon (icon_name : String) (paths : List String)
    (walk : String → List (String × List String)) : Option String :=
  match paths with
  | [] => none
  | base :: rest =>
    match search_in_root icon_name (walk base) with
    | some p => some p
    | none => search_icon icon_name rest walk

/-- Source lines 82-83: strip the raw title, then collapse whitespace runs
with `" ".join(original.split())`. -/
def normalize_title (win_name : String) : String :=
  pyJoinSpace (pySplit (pyStrip win_name))

/-- The separator selected by the loop `for sep in ('—', '–', '-')`
(source line 86): the first of the three characters occurring in `name`. -/
def first_sep (name : String) : Option Char :=
  if pyContains name '—' then some '—'
  else if pyContains name '–' then some '–'
  else if pyContains name '-' then some '-'
  else none

/-- Loop body of `extract_last_word_after_dash` once a separator is found
(source lines 88-92): segment after the last separator, stripped; its last
whitespace token if any, else the segment itself. -/
def dash_result (sep : Char) (name : String) : String :=
  let segment := pyStrip (afterLastChar sep name)
  let words := pySplit segment
  match words.getLast? with
  | some w => w
  | none => segment

/-- Embedding of `extract_last_word_after_dash` (source lines 80-94). -/
def extract_last_word_after_dash (win_name : String) : String :=
  let name := normalize_title win_name
  match first_sep name with
  | some sep => dash_result sep name
  | none => name

/-- Inner listing loop of `find_desktop_file` (source lines 101-105): first
file ending in `.desktop` whose lowercased, space-removed name contains
`target`, joined onto the directory. -/
def scan_files (target dir : String) : List String → Option String
  | [] => none
  | f :: rest =>
    if pyEndsWith f ".desktop" && pyIn target (pyRemoveSpaces (pyLower f)) then
      some (os_path_join dir f)
    else scan_files target dir rest

/-- Directory loop of `find_desktop_file` (source lines 98-105): skip
nonexistent directories, return the first per-directory match. -/
def scan_dirs (target : String) (ex : String → Bool) (ls : String → List String) :
    List String → Option String
  | [] => none
  | d :: rest =>
    if ex d then
      match scan_files target d (ls d) with
      | some p => some p
      | none => scan_dirs target ex ls rest
    else scan_dirs target ex ls rest

/-- Embedding of `find_desktop_file` (source lines 96-106). -/
def find_desktop_file (name_guess home : String) (ex : String → Bool)
    (ls : String → List String) : Option String :=
  scan_dirs (pyRemoveSpaces (pyLower name_guess)) ex ls (DESKTOP_DIRS home)

/-- Modelled from the spec for comparison with `find_desktop_file`: the same
per-directory scan but over the directory order the specification states
(user-local first, then system-wide, then the flatpak and snapd export
directories).  The code's own order puts the system-wide directory first. -/
def find_desktop_file_spec_order (name_guess home : String) (ex : String → Bool)
    (ls : String → List String) : Option String :=
  scan_dirs (pyRemoveSpaces (pyLower name_guess)) ex ls
    [home ++ "/.local/share/applications",
     "/usr/share/applications",
     "/var/lib/flatpak/exports/share/applications",
     "/var/lib/snapd/desktop/applications"]

/-- Line loop of `read_icon_from_desktop` (source lines 113-117): the first
line starting with `Icon=` yields `line.strip().split('=', 1)[1]`. -/
def find_icon_line : List String → Option String
  | [] => none
  | l :: rest =>
    if pyStartsWith l "Icon=" then some (afterFirstChar '=' (pyStrip l))
    else find_icon_line rest

/-- Embedding of `read_icon_from_desktop` (source lines 108-120).  The falsy
check `if not desktop_file` covers both `None` and the empty string; a file
that cannot be opened or read is `fs path = none`, and the surrounding
`except Exception` turns that into `None` rather than raising. -/
def read_icon_from_desktop (desktop_file : Option String)
    (fs : String → Option (List String)) : Option String :=
  match desktop_file with
  | none => none
  | some path =>
    if path = "" then none
    else
      match fs path with
      | none => none
      | some lines => find_icon_line lines

/-- Derived-variant generation for one base candidate `s` (source lines
142-149): skip falsy entries; for the lowercase form `s2` and its
space-free form `s3`, emit the post-dot substring first when `s2` contains
a dot, then `s2`, then `s3` — in exactly that order. -/
def derived_variants (s : String) : List String :=
  if s = "" then []
  else
    (if pyContains (pyLower s) '.' then [afterLastChar '.' (pyLower s)] else [])
      ++ [pyLower s, pyRemoveSpaces (pyLower s)]

/-- Concatenation of per-element variant lists (the `extra` accumulator of
source lines 141-149). -/
def flatten_map (f : String → List String) : List String → List String
  | [] => []
  | s :: rest => f s ++ flatten_map f rest

/-- Deduplication loop of source lines 152-157: keep an entry when it is
truthy (non-empty) and not already kept; `acc` plays both the `seen` set
and the `all_cands` list, which the program grows in lockstep. -/
def dedupLoop (acc : List String) : List String → List String
  | [] => acc
  | c :: rest =>
    if c ≠ "" ∧ c ∉ acc then dedupLoop (acc ++ [c]) rest else dedupLoop acc rest

/-- Word loop of source lines 160-166: append the lowercase form of each
whitespace token of `last_word` that has not been seen yet. -/
def addWords (acc : List String) : List String → List String
  | [] => acc
  | w :: rest =>
    if pyLower w ∉ acc then addWords (acc ++ [pyLower w]) rest else addWords acc rest

/-- Embedding of `build_icon_candidates` (source lines 123-169) given the
already-read descriptor icon.  Base entries keep only truthy inputs in the
order descriptor icon, exec name, last word; then the derived variants are
appended, the whole list deduplicated, and lowercase title words added. -/
def build_icon_candidates_core (icon_from_desktop : Option String)
    (exe_name last_word : String) : List String :=
  let candidates :=
    (match icon_from_desktop with
     | some s => if s ≠ "" then [s] else []
     | none => [])
    ++ (if exe_name ≠ "" then [exe_name] else [])
    ++ (if last_word ≠ "" then [last_word] else [])
  let extra := flatten_map derived_variants candidates
  let deduped := dedupLoop [] (candidates ++ extra)
  if last_word ≠ "" then addWords deduped (pySplit last_word) else deduped

/-- Embedding of `build_icon_candidates` as called in the program: it reads
the descriptor icon itself (source line 132). -/
def build_icon_candidates (desktop_file : Option String)
    (fs : String → Option (List String)) (exe_name last_word : String) : List String :=
  build_icon_candidates_core (read_icon_from_desktop desktop_file fs) exe_name last_word

/-- Candidate loop of `get_icon_path` (source lines 172-176). -/
def try_candidates (cands : List String) (paths : List String)
    (walk : String → List (String × List String)) : Option String :=
  match cands with
  | [] => none
  | c :: rest =>
    match search_icon c paths walk with
    | some f => some f
    | none => try_candidates rest paths walk

/-- Embedding of `get_icon_path` (source lines 171-177). -/
def get_icon_path (desktop_file : Option String) (exe_name last_word : String)
    (fs : String → Option (List String)) (search_paths : List String)
    (walk : String → List (String × List String)) : Option String :=
  try_candidates (build_icon_candidates desktop_file fs exe_name last_word)
    search_paths walk

/-- The per-window resolution pipeline of `main` (source lines 227-229):
normalize the title, locate the descriptor, resolve the icon path.  All
external state (existence, listings, file contents, walk results) is passed
as read-only parameters. -/
def resolve_window (exe_name win_name home : String) (ex : String → Bool)
    (ls : String → List String) (fs : String → Option (List String))
    (search_paths : List String)
    (walk : String → List (String × List String)) : Option String :=
  let last_word := extract_last_word_after_dash win_name
  let desktop_file := find_desktop_file last_word home ex ls
  get_icon_path desktop_file exe_name last_word fs search_paths walk

/-! ## Helper lemmas -/

/-- A string equals the empty string exactly when its character list is empty. -/
theorem string_eq_empty_iff (s : String) : s = "" ↔ s.data = [] := by
  cases s with
  | mk l =>
    constructor
    · intro h
      exact congrArg String.data h
    · intro h
      subst h
      rfl

/-- Lowercasing never turns a non-empty string empty. -/
theorem pyLower_ne_empty {s : String} (h : s ≠ "") : pyLower s ≠ "" := by
  intro he
  apply h
  rw [string_eq_empty_iff] at he ⊢
  simpa [pyLower] using he

/-- Every token produced by the whitespace splitter is non-empty. -/
theorem splitWSAux_mem_ne_empty :
    ∀ (l cur : List Char) (w : String), w ∈ splitWSAux l cur → w ≠ "" := by
  intro l
  induction l with
  | nil =>
    intro cur w hw
    by_cases hc : cur = []
    · simp [splitWSAux, hc] at hw
    · simp [splitWSAux, hc] at hw
      subst hw
      intro he
      exact hc (by simpa using congrArg String.data he)
  | cons c rest ih =>
    intro cur w hw
    by_cases hws : c.isWhitespace
    · by_cases hc : cur = []
      · simp [splitWSAux, hws, hc] at hw
        exact ih [] w hw
      · simp [splitWSAux, hws, hc] at hw
        rcases hw with hw | hw
        · subst hw
          intro he
          exact hc (by simpa using congrArg String.data he)
        · exact ih [] w hw
    · simp [splitWSAux, hws] at hw
      exact ih (c :: cur) w hw

/-- Every token of `pySplit` is non-empty (Python `split()` drops empties). -/
theorem pySplit_mem_ne_empty {s w : String} (h : w ∈ pySplit s) : w ≠ "" :=
  splitWSAux_mem_ne_empty s.data [] w h

/-- The dedup loop preserves freedom from duplicates. -/
theorem dedupLoop_nodup :
    ∀ (l acc : List String), acc.Nodup → (dedupLoop acc l).Nodup := by
  intro l
  induction l with
  | nil =>
    intro acc h
    simpa [dedupLoop] using h
  | cons c rest ih =>
    intro acc h
    by_cases hc : c ≠ "" ∧ c ∉ acc
    · rw [dedupLoop, if_pos hc]
      exact ih _ (h.append (List.nodup_singleton c) (List.disjoint_singleton.mpr hc.2))
    · rw [dedupLoop, if_neg hc]
      exact ih _ h

/-- The dedup loop never lets the empty string in. -/
theorem dedupLoop_not_mem_empty :
    ∀ (l acc : List String), "" ∉ acc → "" ∉ dedupLoop acc l := by
  intro l
  induction l with
  | nil =>
    intro acc h
    simpa [dedupLoop] using h
  | cons c rest ih =>
    intro acc h
    by_cases hc : c ≠ "" ∧ c ∉ acc
    · rw [dedupLoop, if_pos hc]
      apply ih
      intro hmem
      rcases List.mem_append.mp hmem with hmem | hmem
      · exact h hmem
      · exact hc.1 (List.mem_singleton.mp hmem).symm
    · rw [dedupLoop, if_neg hc]
      exact ih _ h

/-- The word loop preserves freedom from duplicates. -/
theorem addWords_nodup :
    ∀ (ws acc : List String), acc.Nodup → (addWords acc ws).Nodup := by
  intro ws
  induction ws with
  | nil =>
    intro acc h
    simpa [addWords] using h
  | cons w rest ih =>
    intro acc h
    by_cases hw : pyLower w ∉ acc
    · rw [addWords, if_pos hw]
      exact ih _ (h.append (List.nodup_singleton _) (List.disjoint_singleton.mpr hw))
    · rw [addWords, if_neg hw]
      exact ih _ h

/-- The word loop never lets the empty string in, as long as the lowercase
form of every pending word is non-empty. -/
theorem addWords_not_mem_empty :
    ∀ (ws acc : List String), (∀ w ∈ ws, pyLower w ≠ "") → "" ∉ acc →
      "" ∉ addWords acc ws := by
  intro ws
  induction ws with
  | nil =>
    intro acc _ h
    simpa [addWords] using h
  | cons w rest ih =>
    intro acc hws h
    by_cases hw : pyLower w ∉ acc
    · rw [addWords, if_pos hw]
      apply ih _ (fun x hx => hws x (List.mem_cons_of_mem w hx))
      intro hmem
      rcases List.mem_append.mp hmem with hmem | hmem
      · exact h hmem
      · exact hws w (List.mem_cons_self w rest) (List.mem_singleton.mp hmem).symm
    · rw [addWords, if_neg hw]
      exact ih _ (fun x hx => hws x (List.mem_cons_of_mem w hx)) h

/-! ## Claims -/

/-- C2: for every combination of present/absent descriptor icon, exec hint,
and normalized hint, `build_icon_candidates` returns a list with no
duplicate entries (by exact string equality) and no empty-string entries. -/
theorem c2_no_duplicates_no_empties (icon_from_desktop : Option String)
    (exe_name last_word : String) :
    (build_icon_candidates_core icon_from_desktop exe_name last_word).Nodup
      ∧ "" ∉ build_icon_candidates_core icon_from_desktop exe_name last_word := by
  simp only [build_icon_candidates_core]
  constructor
  · by_cases hl : last_word ≠ ""
    · rw [if_pos hl]
      exact addWords_nodup _ _ (dedupLoop_nodup _ _ List.nodup_nil)
    · rw [if_neg hl]
      exact dedupLoop_nodup _ _ List.nodup_nil
  · by_cases hl : last_word ≠ ""
    · rw [if_pos hl]
      exact addWords_not_mem_empty _ _
        (fun w hw => pyLower_ne_empty (pySplit_mem_ne_empty hw))
        (dedupLoop_not_mem_empty _ _ (List.not_mem_nil ""))
    · rw [if_neg hl]
      exact dedupLoop_not_mem_empty _ _ (List.not_mem_nil "")

/-- Witness for C2 at a concrete input. -/
theorem c2_no_duplicates_no_empties_witness :
    (build_icon_candidates_core (some "org.example.App") "firefox" "Text Editor").Nodup
      ∧ "" ∉ build_icon_candidates_core (some "org.example.App") "firefox" "Text Editor" :=
  c2_no_duplicates_no_empties (some "org.example.App") "firefox" "Text Editor"

/-- C1 counterexample: for descriptor icon "org.example.App" (exec hint and
normalized hint absent) the candidate list is
["org.example.App", "app", "org.example.app"], so the post-dot substring
"app" occurs strictly before the lowercased form "org.example.app" — the
claimed relative order (lowercased first) is violated. -/
theorem c1_counterexample :
    build_icon_candidates_core (some "org.example.App") "" ""
        = ["org.example.App", "app", "org.example.app"]
      ∧ (["org.example.App", "app", "org.example.app"].findIdx
            (fun s => s == "app"))
          < (["org.example.App", "app", "org.example.app"].findIdx
            (fun s => s == "org.example.app")) := by
  constructor
  · rfl
  · decide

/-- C1 (amended): the derived variants of a dotted base entry are emitted
post-dot substring first, then the lowercase form, then the
lowercase-without-spaces form; in particular for descriptor icon
"org.example.App" the candidate list is
["org.example.App", "app", "org.example.app"], with "app" before
"org.example.app". -/
theorem c1_dot_variant_order :
    (∀ s : String, s ≠ "" → pyContains (pyLower s) '.' = true →
        derived_variants s
          = [afterLastChar '.' (pyLower s), pyLower s, pyRemoveSpaces (pyLower s)])
      ∧ build_icon_candidates_core (some "org.example.App") "" ""
          = ["org.example.App", "app", "org.example.app"] := by
  constructor
  · intro s hs hdot
    simp [derived_variants, hs, hdot]
  · rfl

/-- Witness for C1 (amended) at a concrete dotted input. -/
theorem c1_dot_variant_order_witness :
    derived_variants "Org.Ex" = ["ex", "org.ex", "org.ex"]
      ∧ build_icon_candidates_core (some "org.example.App") "" ""
          = ["org.example.App", "app", "org.example.app"] :=
  ⟨(c1_dot_variant_order.1 "Org.Ex" (by decide) (by decide)).trans (by decide),
   c1_dot_variant_order.2⟩

/-- A root whose walk contains no match is skipped by `search_icon`. -/
theorem search_icon_cons_none (name p : String) (rest : List String)
    (walk : String → List (String × List String))
    (hp : search_in_root name (walk p) = none) :
    search_icon name (p :: rest) walk = search_icon name rest walk := by
  show (match search_in_root name (walk p) with
        | some q => some q
        | none => search_icon name rest walk) = search_icon name rest walk
  rw [hp]

/-- A root whose walk contains a match ends the search with that match. -/
theorem search_icon_cons_some (name p : String) (rest : List String)
    (walk : String → List (String × List String)) (q : String)
    (hp : search_in_root name (walk p) = some q) :
    search_icon name (p :: rest) walk = some q := by
  unfold search_icon
  rw [hp]

/-- A whole prefix of matchless roots is skipped by `search_icon`. -/
theorem search_icon_skip_none (name : String)
    (walk : String → List (String × List String)) :
    ∀ (pre rest : List String),
      (∀ p ∈ pre, search_in_root name (walk p) = none) →
      search_icon name (pre ++ rest) walk = search_icon name rest walk := by
  intro pre
  induction pre with
  | nil =>
    intro rest _
    rfl
  | cons p pre ih =>
    intro rest h
    rw [List.cons_append,
      search_icon_cons_none name p _ walk (h p (List.mem_cons_self p pre))]
    exact ih rest (fun q hq => h q (List.mem_cons_of_mem p hq))

/-- C3: root order strictly dominates extension order in `search_icon`.  If
every root before `b1` has no match, `b1` has a match `q` (in the scenario of
the claim: only under a low-priority extension), and some later root `b2`
also has a match (in the scenario: under a higher-priority extension), the
returned path is `b1`'s own match, whatever `b2` contains. -/
theorem c3_root_order_priority (name : String)
    (walk : String → List (String × List String))
    (pre mid post : List String) (b1 b2 q : String)
    (hpre : ∀ p ∈ pre, search_in_root name (walk p) = none)
    (hb1 : search_in_root name (walk b1) = some q)
    (_hb2 : search_in_root name (walk b2) ≠ none) :
    search_icon name (pre ++ b1 :: (mid ++ b2 :: post)) walk = some q := by
  rw [search_icon_skip_none name walk pre _ hpre]
  exact search_icon_cons_some name b1 _ walk q hb1

/-- Witness for C3: root `r1` holds only `ic.xpm` (extension priority 3),
root `r2` holds `ic.png` (extension priority 1); the result still comes
from `r1`. -/
theorem c3_root_order_priority_witness :
    search_icon "ic" ["r1", "r2"]
      (fun b => if b = "r1" then [("r1", ["ic.xpm"])]
        else if b = "r2" then [("r2", ["ic.png"])] else [])
      = some "r1/ic.xpm" := by
  have h := c3_root_order_priority "ic"
    (fun b => if b = "r1" then [("r1", ["ic.xpm"])]
      else if b = "r2" then [("r2", ["ic.png"])] else [])
    [] [] [] "r1" "r2" "r1/ic.xpm"
    (by intro p hp; simp at hp) (by decide) (by decide)
  simpa using h

/-- C4: on any title in which one of the three separators occurs (em dash,
en dash, hyphen, selected in that priority order) and whose post-separator
segment has at least one whitespace token, the normalizer returns the last
token of the segment after the final occurrence of the selected separator;
on any title with no separator it returns the whitespace-collapsed, trimmed
title unchanged; and the two scenario inputs evaluate as the claim states. -/
theorem c4_normalize_last_word :
    (∀ (t : String) (sep : Char),
        first_sep (normalize_title t) = some sep →
        pySplit (pyStrip (afterLastChar sep (normalize_title t))) ≠ [] →
        (pySplit (pyStrip (afterLastChar sep (normalize_title t)))).getLast?
          = some (extract_last_word_after_dash t))
      ∧ (∀ t : String, first_sep (normalize_title t) = none →
          extract_last_word_after_dash t = normalize_title t)
      ∧ extract_last_word_after_dash "report.txt - Text Editor" = "Editor"
      ∧ extract_last_word_after_dash "htop" = "htop" := by
  refine ⟨?_, ?_, rfl, rfl⟩
  · intro t sep hsep hne
    simp only [extract_last_word_after_dash]
    rw [hsep]
    simp only [dash_result]
    cases hw : (pySplit (pyStrip (afterLastChar sep (normalize_title t)))).getLast? with
    | none => exact absurd (List.getLast?_eq_none_iff.mp hw) hne
    | some w => rfl
  · intro t h
    simp only [extract_last_word_after_dash]
    rw [h]

/-- Witness for C4 at the two scenario inputs of the claim. -/
theorem c4_normalize_last_word_witness :
    (pySplit (pyStrip (afterLastChar '-' (normalize_title "report.txt - Text Editor")))).getLast?
        = some (extract_last_word_after_dash "report.txt - Text Editor")
      ∧ extract_last_word_after_dash "htop" = normalize_title "htop" :=
  ⟨c4_normalize_last_word.1 "report.txt - Text Editor" '-' (by decide) (by decide),
   c4_normalize_last_word.2.1 "htop" (by decide)⟩

/-- The per-base existence loop is the filtered image of the base list. -/
theorem existing_dirs_eq_filter (ex : String → Bool) (f : String → String) :
    ∀ l : List String, existing_dirs ex f l = (l.map f).filter ex := by
  intro l
  induction l with
  | nil => rfl
  | cons b rest ih =>
    by_cases hb : ex (f b) = true
    · simp [existing_dirs, hb, ih, List.filter_cons]
    · simp [existing_dirs, hb, ih, List.filter_cons]

/-- C5: every returned directory exists, and the result is exactly the
theme-specific directories in data-root order (user data root first, then
each system data root), then the hicolor directories in the same order,
then the fixed pixmaps directory — each part filtered to existing
directories. -/
theorem c5_search_paths_order (theme : String) (xdd xdh : Option String)
    (home : String) (ex : String → Bool) :
    (∀ p ∈ get_icon_search_paths theme xdd xdh home ex, ex p = true)
      ∧ get_icon_search_paths theme xdd xdh home ex
          = ((data_bases xdd xdh home).map
                (fun b => os_path_join (os_path_join b "icons") theme)).filter ex
            ++ ((data_bases xdd xdh home).map
                (fun b => os_path_join (os_path_join b "icons") "hicolor")).filter ex
            ++ (if ex "/usr/share/pixmaps" then ["/usr/share/pixmaps"] else []) := by
  have heq : get_icon_search_paths theme xdd xdh home ex
      = ((data_bases xdd xdh home).map
            (fun b => os_path_join (os_path_join b "icons") theme)).filter ex
        ++ ((data_bases xdd xdh home).map
            (fun b => os_path_join (os_path_join b "icons") "hicolor")).filter ex
        ++ (if ex "/usr/share/pixmaps" then ["/usr/share/pixmaps"] else []) := by
    simp only [get_icon_search_paths]
    rw [existing_dirs_eq_filter, existing_dirs_eq_filter]
  refine ⟨?_, heq⟩
  intro p hp
  rw [heq] at hp
  rcases List.mem_append.mp hp with hp2 | hp2
  · rcases List.mem_append.mp hp2 with hp3 | hp3
    · exact (List.mem_filter.mp hp3).2
    · exact (List.mem_filter.mp hp3).2
  · by_cases hpix : ex "/usr/share/pixmaps" = true
    · rw [if_pos hpix] at hp2
      rw [List.mem_singleton.mp hp2]
      exact hpix
    · simp [hpix] at hp2

/-- Witness for C5 at a concrete environment in which only the system
Adwaita directory and the pixmaps directory exist. -/
theorem c5_search_paths_order_witness :
    get_icon_search_paths "Adwaita" none none "/h"
        (fun p => p = "/usr/share/icons/Adwaita" || p = "/usr/share/pixmaps")
        = ["/usr/share/icons/Adwaita", "/usr/share/pixmaps"]
      ∧ (fun p => p = "/usr/share/icons/Adwaita" || p = "/usr/share/pixmaps")
          "/usr/share/icons/Adwaita" = true := by
  constructor
  · rw [(c5_search_paths_order "Adwaita" none none "/h"
      (fun p => p = "/usr/share/icons/Adwaita" || p = "/usr/share/pixmaps")).2]
    decide
  · exact (c5_search_paths_order "Adwaita" none none "/h"
      (fun p => p = "/usr/share/icons/Adwaita" || p = "/usr/share/pixmaps")).1
      "/usr/share/icons/Adwaita" (by decide)

/-- C6 counterexample: a missing tool raises `FileNotFoundError` inside
`check_output`, which the handler `except subprocess.CalledProcessError`
does not catch — the failure propagates instead of producing "hicolor". -/
theorem c6_counterexample :
    get_current_icon_theme ThemeQueryOutcome.fileNotFoundError
        = Except.error "FileNotFoundError"
      ∧ get_current_icon_theme ThemeQueryOutcome.fileNotFoundError
          ≠ Except.ok "hicolor" :=
  ⟨rfl, fun h => Except.noConfusion h⟩

/-- C6 (amended): the fallback to "hicolor" happens exactly when the theme
query exits with non-zero status (`CalledProcessError`), and that failure
is swallowed; a successful query returns its stripped output; a missing
tool or undecodable output is not caught and propagates to the caller. -/
theorem c6_fallback_scope :
    get_current_icon_theme ThemeQueryOutcome.calledProcessError = Except.ok "hicolor"
      ∧ (∀ s : String,
          get_current_icon_theme (ThemeQueryOutcome.ok s) = Except.ok (pyStrip s))
      ∧ get_current_icon_theme ThemeQueryOutcome.fileNotFoundError
          = Except.error "FileNotFoundError"
      ∧ get_current_icon_theme ThemeQueryOutcome.unicodeDecodeError
          = Except.error "UnicodeDecodeError" :=
  ⟨rfl, fun _ => rfl, rfl, rfl⟩

/-- Within one directory listing, the first entry satisfying the
`.desktop`-suffix-and-substring test is returned, joined onto the
directory. -/
theorem scan_files_first (target dir : String) :
    ∀ (pre : List String) (f : String) (rest : List String),
      (∀ g ∈ pre,
        (pyEndsWith g ".desktop" && pyIn target (pyRemoveSpaces (pyLower g))) = false) →
      (pyEndsWith f ".desktop" && pyIn target (pyRemoveSpaces (pyLower f))) = true →
      scan_files target dir (pre ++ f :: rest) = some (os_path_join dir f) := by
  intro pre
  induction pre with
  | nil =>
    intro f rest _ hf
    simp [scan_files, hf]
  | cons g pre ih =>
    intro f rest hpre hf
    have hg := hpre g (List.mem_cons_self g pre)
    rw [List.cons_append]
    simp [scan_files, hg]
    exact ih f rest (fun q hq => hpre q (List.mem_cons_of_mem g hq)) hf

/-- The directory loop returns the first existing directory's match, once
every earlier directory is nonexistent or matchless. -/
theorem scan_dirs_first (target : String) (ex : String → Bool)
    (ls : String → List String) :
    ∀ (pre : List String) (d : String) (rest : List String) (r : String),
      (∀ p ∈ pre, ex p = false ∨ scan_files target p (ls p) = none) →
      ex d = true →
      scan_files target d (ls d) = some r →
      scan_dirs target ex ls (pre ++ d :: rest) = some r := by
  intro pre
  induction pre with
  | nil =>
    intro d rest r _ hd hscan
    simp [scan_dirs, hd, hscan]
  | cons p pre ih =>
    intro d rest r hpre hd hscan
    have hp := hpre p (List.mem_cons_self p pre)
    rw [List.cons_append]
    rcases hp with hp | hp
    · simp [scan_dirs, hp]
      exact ih d rest r (fun q hq => hpre q (List.mem_cons_of_mem p hq)) hd hscan
    · by_cases hex : ex p = true
      · simp [scan_dirs, hex, hp]
        exact ih d rest r (fun q hq => hpre q (List.mem_cons_of_mem p hq)) hd hscan
      · simp [scan_dirs, hex]
        exact ih d rest r (fun q hq => hpre q (List.mem_cons_of_mem p hq)) hd hscan

/-- The directory loop returns absent when every directory is nonexistent
or its listing holds no matching file. -/
theorem scan_dirs_none (target : String) (ex : String → Bool)
    (ls : String → List String) :
    ∀ dirs : List String,
      (∀ d ∈ dirs, ex d = false ∨ scan_files target d (ls d) = none) →
      scan_dirs target ex ls dirs = none := by
  intro dirs
  induction dirs with
  | nil =>
    intro _
    rfl
  | cons a dirs ih =>
    intro h
    rcases h a (List.mem_cons_self a dirs) with ha | ha
    · simp [scan_dirs, ha]
      exact ih (fun d hd => h d (List.mem_cons_of_mem a hd))
    · by_cases hexa : ex a = true
      · simp [scan_dirs, hexa, ha]
        exact ih (fun d hd => h d (List.mem_cons_of_mem a hd))
      · simp [scan_dirs, hexa]
        exact ih (fun d hd => h d (List.mem_cons_of_mem a hd))

/-- C7 counterexample: with both the system-wide and the user-local
directory existing and each holding a matching `foo.desktop`, the code
returns the system-wide path, while a scan in the claim's stated order
(user-local first) would return the user-local path. -/
theorem c7_counterexample :
    find_desktop_file "foo" "/home/u"
        (fun d => d = "/usr/share/applications"
          || d = "/home/u/.local/share/applications")
        (fun _ => ["foo.desktop"])
        = some "/usr/share/applications/foo.desktop"
      ∧ find_desktop_file_spec_order "foo" "/home/u"
          (fun d => d = "/usr/share/applications"
            || d = "/home/u/.local/share/applications")
          (fun _ => ["foo.desktop"])
          = some "/home/u/.local/share/applications/foo.desktop"
      ∧ ("/usr/share/applications/foo.desktop" : String)
          ≠ "/home/u/.local/share/applications/foo.desktop" :=
  ⟨rfl, rfl, by decide⟩

/-- C7 (amended): the descriptor directories are scanned in the code's
fixed order — system-wide first, then user-local, then the flatpak and
snapd export directories; the first existing directory whose listing
matches wins, and within a directory the first file ending in ".desktop"
whose lowercased, space-removed name contains the lowercased,
space-removed hint is returned; the result is absent when no directory
yields a match. -/
theorem c7_descriptor_scan_order :
    (∀ home : String, DESKTOP_DIRS home
        = ["/usr/share/applications",
           home ++ "/.local/share/applications",
           "/var/lib/flatpak/exports/share/applications",
           "/var/lib/snapd/desktop/applications"])
      ∧ (∀ (name home : String) (ex : String → Bool) (ls : String → List String)
           (pre : List String) (d : String) (rest : List String) (r : String),
          DESKTOP_DIRS home = pre ++ d :: rest →
          (∀ p ∈ pre, ex p = false ∨
            scan_files (pyRemoveSpaces (pyLower name)) p (ls p) = none) →
          ex d = true →
          scan_files (pyRemoveSpaces (pyLower name)) d (ls d) = some r →
          find_desktop_file name home ex ls = some r)
      ∧ (∀ (target dir : String) (pre : List String) (f : String) (rest : List String),
          (∀ g ∈ pre,
            (pyEndsWith g ".desktop" && pyIn target (pyRemoveSpaces (pyLower g)))
              = false) →
          (pyEndsWith f ".desktop" && pyIn target (pyRemoveSpaces (pyLower f))) = true →
          scan_files target dir (pre ++ f :: rest) = some (os_path_join dir f))
      ∧ (∀ (name home : String) (ex : String → Bool) (ls : String → List String),
          (∀ d ∈ DESKTOP_DIRS home, ex d = false ∨
            scan_files (pyRemoveSpaces (pyLower name)) d (ls d) = none) →
          find_desktop_file name home ex ls = none) := by
  refine ⟨fun _ => rfl, ?_, scan_files_first, ?_⟩
  · intro name home ex ls pre d rest r hdirs hpre hd hscan
    unfold find_desktop_file
    rw [hdirs]
    exact scan_dirs_first _ ex ls pre d rest r hpre hd hscan
  · intro name home ex ls h
    unfold find_desktop_file
    exact scan_dirs_none _ ex ls (DESKTOP_DIRS home) h

/-- Witness for C7 (amended) at concrete directory contents. -/
theorem c7_descriptor_scan_order_witness :
    find_desktop_file "foo" "/home/u" (fun d => d = "/usr/share/applications")
        (fun _ => ["foo.desktop"])
        = some "/usr/share/applications/foo.desktop"
      ∧ scan_files "foo" "/d" (["x.txt"] ++ "afoo.desktop" :: [])
          = some (os_path_join "/d" "afoo.desktop")
      ∧ find_desktop_file "foo" "/h" (fun d => d = "/usr/share/applications")
          (fun _ => ["readme.txt"])
          = none := by
  refine ⟨?_, ?_, ?_⟩
  · exact c7_descriptor_scan_order.2.1 "foo" "/home/u"
      (fun d => d = "/usr/share/applications") (fun _ => ["foo.desktop"])
      [] "/usr/share/applications"
      ["/home/u/.local/share/applications",
       "/var/lib/flatpak/exports/share/applications",
       "/var/lib/snapd/desktop/applications"]
      "/usr/share/applications/foo.desktop"
      (by decide) (by intro p hp; simp at hp) (by decide) (by decide)
  · exact c7_descriptor_scan_order.2.2.1 "foo" "/d" ["x.txt"] "afoo.desktop" []
      (by decide) (by decide)
  · exact c7_descriptor_scan_order.2.2.2 "foo" "/h"
      (fun d => d = "/usr/share/applications") (fun _ => ["readme.txt"])
      (by decide)

/-- The line loop returns the stripped-then-split value of the first line
beginning with `Icon=`. -/
theorem find_icon_line_first :
    ∀ (pre : List String) (l : String) (rest : List String),
      (∀ x ∈ pre, pyStartsWith x "Icon=" = false) →
      pyStartsWith l "Icon=" = true →
      find_icon_line (pre ++ l :: rest) = some (afterFirstChar '=' (pyStrip l)) := by
  intro pre
  induction pre with
  | nil =>
    intro l rest _ hl
    simp [find_icon_line, hl]
  | cons x pre ih =>
    intro l rest hpre hl
    have hx := hpre x (List.mem_cons_self x pre)
    rw [List.cons_append]
    simp [find_icon_line, hx]
    exact ih l rest (fun q hq => hpre q (List.mem_cons_of_mem x hq)) hl

/-- The line loop finds nothing when no line begins with `Icon=`. -/
theorem find_icon_line_none :
    ∀ lines : List String,
      (∀ x ∈ lines, pyStartsWith x "Icon=" = false) →
      find_icon_line lines = none := by
  intro lines
  induction lines with
  | nil => intro _; rfl
  | cons x rest ih =>
    intro h
    have hx := h x (List.mem_cons_self x rest)
    simp [find_icon_line, hx]
    exact ih (fun q hq => h q (List.mem_cons_of_mem x hq))

/-- C8 counterexample: on the line "Icon=app \n" the code strips the whole
line before splitting and returns "app", whereas the raw remainder after
the split on '=' is "app \n" — trailing whitespace is trimmed, contradicting
the claim that nothing beyond the split is trimmed. -/
theorem c8_counterexample :
    read_icon_from_desktop (some "/a.desktop")
        (fun p => if p = "/a.desktop" then some ["Icon=app \n"] else none)
        = some "app"
      ∧ afterFirstChar '=' "Icon=app \n" = "app \n"
      ∧ ("app" : String) ≠ "app \n" :=
  ⟨rfl, rfl, by decide⟩

/-- C8 (amended): `readIcon` returns the remainder after '=' of the first
`Icon=`-prefixed line with the whole line stripped of surrounding
whitespace first (so leading whitespace of the value survives, trailing
whitespace and the newline do not); it returns absent when the descriptor
is absent or falsy, when the file cannot be opened (the raised error is
caught), and when no `Icon=` line exists. -/
theorem c8_read_icon_stripped_line :
    (∀ fs : String → Option (List String), read_icon_from_desktop none fs = none)
      ∧ (∀ fs : String → Option (List String),
          read_icon_from_desktop (some "") fs = none)
      ∧ (∀ (path : String) (fs : String → Option (List String)),
          path ≠ "" → fs path = none → read_icon_from_desktop (some path) fs = none)
      ∧ (∀ (path : String) (fs : String → Option (List String)) (pre : List String)
           (l : String) (rest : List String),
          path ≠ "" → fs path = some (pre ++ l :: rest) →
          (∀ x ∈ pre, pyStartsWith x "Icon=" = false) →
          pyStartsWith l "Icon=" = true →
          read_icon_from_desktop (some path) fs
            = some (afterFirstChar '=' (pyStrip l)))
      ∧ (∀ (path : String) (fs : String → Option (List String)) (lines : List String),
          path ≠ "" → fs path = some lines →
          (∀ x ∈ lines, pyStartsWith x "Icon=" = false) →
          read_icon_from_desktop (some path) fs = none) := by
  refine ⟨fun _ => rfl, ?_, ?_, ?_, ?_⟩
  · intro fs
    simp [read_icon_from_desktop]
  · intro path fs hp hfs
    simp [read_icon_from_desktop, hp, hfs]
  · intro path fs pre l rest hp hfs hpre hl
    simp [read_icon_from_desktop, hp, hfs]
    exact find_icon_line_first pre l rest hpre hl
  · intro path fs lines hp hfs hnone
    simp [read_icon_from_desktop, hp, hfs]
    exact find_icon_line_none lines hnone

/-- Witness for C8 (amended) at a concrete descriptor file. -/
theorem c8_read_icon_stripped_line_witness :
    read_icon_from_desktop (some "/a.desktop")
        (fun p => if p = "/a.desktop" then some (["# c"] ++ "Icon= App \n" :: ["X=1"])
          else none)
        = some (afterFirstChar '=' (pyStrip "Icon= App \n"))
      ∧ read_icon_from_desktop (some "/b.desktop")
          (fun p => if p = "/a.desktop" then some (["# c"] ++ "Icon= App \n" :: ["X=1"])
            else none)
          = none := by
  constructor
  · exact c8_read_icon_stripped_line.2.2.2.1 "/a.desktop"
      (fun p => if p = "/a.desktop" then some (["# c"] ++ "Icon= App \n" :: ["X=1"])
        else none)
      ["# c"] "Icon= App \n" ["X=1"]
      (by decide) (by decide) (by decide) (by decide)
  · exact c8_read_icon_stripped_line.2.2.1 "/b.desktop"
      (fun p => if p = "/a.desktop" then some (["# c"] ++ "Icon= App \n" :: ["X=1"])
        else none)
      (by decide) (by decide)

/-- C9: the per-window resolution pipeline is a pure function of the window
data, the search paths, and the explicit read-only filesystem and
environment parameters, so running it twice on the same inputs yields the
same resolved path (or absence) both times. -/
theorem c9_resolution_deterministic (exe_name win_name home : String)
    (ex : String → Bool) (ls : String → List String)
    (fs : String → Option (List String)) (search_paths : List String)
    (walk : String → List (String × List String)) :
    resolve_window exe_name win_name home ex ls fs search_paths walk
      = resolve_window exe_name win_name home ex ls fs search_paths walk := rfl

/-- The empty needle is a substring of everything (Python `"" in s`). -/
theorem isSubChars_nil (l : List Char) : isSubChars [] l = true := by
  cases l <;> rfl

/-- With an empty match key, the per-directory scan degenerates to the
first file ending in ".desktop". -/
theorem scan_files_empty_key (dir : String) :
    ∀ files : List String,
      scan_files "" dir files
        = (files.find? (fun f => pyEndsWith f ".desktop")).map (os_path_join dir) := by
  intro files
  induction files with
  | nil => rfl
  | cons f rest ih =>
    by_cases hf : pyEndsWith f ".desktop" = true
    · simp [scan_files, hf, pyIn, isSubChars_nil, List.find?_cons_of_pos]
    · simp [scan_files, hf, pyIn, isSubChars_nil, List.find?_cons_of_neg, ih]

/-- If some listed directory exists and its scan succeeds, the directory
loop cannot return absent. -/
theorem scan_dirs_ne_none_of_mem (target : String) (ex : String → Bool)
    (ls : String → List String) :
    ∀ (dirs : List String) (d : String), d ∈ dirs → ex d = true →
      scan_files target d (ls d) ≠ none →
      scan_dirs target ex ls dirs ≠ none := by
  intro dirs
  induction dirs with
  | nil =>
    intro d hd
    simp at hd
  | cons a dirs ih =>
    intro d hd hex hscan
    rcases List.mem_cons.mp hd with h | h
    · subst h
      cases hsf : scan_files target d (ls d) with
      | none => exact absurd hsf hscan
      | some r => simp [scan_dirs, hex, hsf]
    · by_cases hexa : ex a = true
      · cases hsa : scan_files target a (ls a) with
        | some r => simp [scan_dirs, hexa, hsa]
        | none =>
          simp [scan_dirs, hexa, hsa]
          exact ih d h hex hscan
      · simp [scan_dirs, hexa]
        exact ih d h hex hscan

/-- C10 (implicit): when the hint's lowercased, space-removed match key is
empty, substring containment holds vacuously, so `find_desktop_file` does
not return absent whenever some descriptor directory exists and lists a
".desktop" file; and the first existing directory whose listing holds a
".desktop" file yields its first such file. -/
theorem c10_empty_hint_matches_first :
    (∀ (hint home : String) (ex : String → Bool) (ls : String → List String),
        pyRemoveSpaces (pyLower hint) = "" →
        (∃ d ∈ DESKTOP_DIRS home, ex d = true
          ∧ ∃ f ∈ ls d, pyEndsWith f ".desktop" = true) →
        find_desktop_file hint home ex ls ≠ none)
      ∧ (∀ (hint home : String) (ex : String → Bool) (ls : String → List String)
           (pre : List String) (d : String) (rest : List String) (f : String),
          pyRemoveSpaces (pyLower hint) = "" →
          DESKTOP_DIRS home = pre ++ d :: rest →
          (∀ p ∈ pre, ex p = false) →
          ex d = true →
          (ls d).find? (fun g => pyEndsWith g ".desktop") = some f →
          find_desktop_file hint home ex ls = some (os_path_join d f)) := by
  constructor
  · intro hint home ex ls hkey hex
    obtain ⟨d, hd, hexd, f, hf, hdesk⟩ := hex
    unfold find_desktop_file
    rw [hkey]
    apply scan_dirs_ne_none_of_mem "" ex ls (DESKTOP_DIRS home) d hd hexd
    rw [scan_files_empty_key]
    intro hnone
    rcases Option.map_eq_none'.mp hnone with hfind
    exact absurd hdesk (List.find?_eq_none.mp hfind f hf)
  · intro hint home ex ls pre d rest f hkey hdirs hpre hexd hfind
    unfold find_desktop_file
    rw [hkey, hdirs]
    apply scan_dirs_first "" ex ls pre d rest (os_path_join d f)
      (fun p hp => Or.inl (hpre p hp)) hexd
    rw [scan_files_empty_key, hfind]
    rfl

/-- Witness for C10: a hint of one space, one existing directory whose
listing holds a non-descriptor entry followed by "a.desktop". -/
theorem c10_empty_hint_matches_first_witness :
    find_desktop_file " " "/h" (fun d => d = "/usr/share/applications")
        (fun d => if d = "/usr/share/applications" then ["x.txt", "a.desktop"] else [])
        ≠ none
      ∧ find_desktop_file " " "/h" (fun d => d = "/usr/share/applications")
          (fun d => if d = "/usr/share/applications" then ["x.txt", "a.desktop"] else [])
          = some (os_path_join "/usr/share/applications" "a.desktop") := by
  constructor
  · exact c10_empty_hint_matches_first.1 " " "/h"
      (fun d => d = "/usr/share/applications")
      (fun d => if d = "/usr/share/applications" then ["x.txt", "a.desktop"] else [])
      (by decide) (by decide)
  · exact c10_empty_hint_matches_first.2 " " "/h"
      (fun d => d = "/usr/share/applications")
      (fun d => if d = "/usr/share/applications" then ["x.txt", "a.desktop"] else [])
      [] "/usr/share/applications"
      ["/h/.local/share/applications",
       "/var/lib/flatpak/exports/share/applications",
       "/var/lib/snapd/desktop/applications"]
      "a.desktop"
      (by decide) (by decide) (by intro p hp; simp at hp) (by decide) (by decide)

/-- Witness for C6 (amended) at a concrete query transcript. -/
theorem c6_fallback_scope_witness :
    get_current_icon_theme (ThemeQueryOutcome.ok " Papirus \n")
        = Except.ok (pyStrip " Papirus \n")
      ∧ get_current_icon_theme ThemeQueryOutcome.calledProcessError
          = Except.ok "hicolor" :=
  ⟨c6_fallback_scope.2.1 " Papirus \n", c6_fallback_scope.1⟩

/-- Witness for C9 at one concrete window and filesystem state. -/
theorem c9_resolution_deterministic_witness :
    resolve_window "xterm" "report.txt - Text Editor" "/h"
        (fun _ => false) (fun _ => []) (fun _ => none) [] (fun _ => [])
      = resolve_window "xterm" "report.txt - Text Editor" "/h"
        (fun _ => false) (fun _ => []) (fun _ => none) [] (fun _ => []) :=
  c9_resolution_deterministic "xterm" "report.txt - Text Editor" "/h"
    (fun _ => false) (fun _ => []) (fun _ => none) [] (fun _ => [])
